import Mathlib

/-!
Verification of the fetch/filter/download pipeline of the Reddit image
scraper (src/reddit_image_scraper.py).  The Python source is shallowly
embedded: pure string manipulation from the Python standard library is
re-implemented over character lists, the network is an explicit oracle
(a list of responses consumed in order), the filesystem is an
association list from file names to byte contents, and the thread pool
of the download phase is modelled as a sequential fold (the claims
under study only concern per-candidate outcomes and order-insensitive
aggregate counters).  `time.sleep` is a no-op in the model.
-/

/-- Model of the Python substring search underlying `pat in s`:
index of the first occurrence of `pat` in `s`, if any. -/
def find_sub_idx (s pat : List Char) : Option Nat :=
  (List.range (s.length + 1)).find? (fun i => pat.isPrefixOf (s.drop i))

/-- Model of the Python containment test `pat in s` on strings. -/
def contains_sub (s pat : String) : Bool :=
  (find_sub_idx s.data pat.data).isSome

/-- Model of Python `str.replace` (used for `&amp;` unescaping), over
character lists: replaces every non-overlapping occurrence of `pat`,
scanning left to right.  Recursion is driven by a fuel argument so the
definition is structural; each step consumes at least one character,
so fuel equal to the list length is always adequate.  Only called with
a non-empty pattern. -/
def replace_sub (pat rep : List Char) : Nat → List Char → List Char
  | 0, s => s
  | _ + 1, [] => []
  | fuel + 1, c :: rest =>
    if pat.isPrefixOf (c :: rest) then
      rep ++ replace_sub pat rep fuel (rest.drop (pat.length - 1))
    else
      c :: replace_sub pat rep fuel rest

/-- Model of Python `str.replace` on strings. -/
def string_replace (s pat rep : String) : String :=
  ⟨replace_sub pat.data rep.data s.data.length s.data⟩

/-- Model of Python `str.lower` (ASCII-adequate for the URLs at hand). -/
def str_to_lower (s : String) : String :=
  ⟨s.data.map Char.toLower⟩

/-- Model of Python slicing `s[:n]` (character-based). -/
def str_take (s : String) (n : Nat) : String :=
  ⟨s.data.take n⟩

/-- Model of Python `str.strip()`: drop whitespace from both ends. -/
def str_trim (s : String) : String :=
  ⟨((s.data.dropWhile Char.isWhitespace).reverse.dropWhile Char.isWhitespace).reverse⟩

/-- Model of Python `str.endswith`. -/
def str_ends_with (s suf : String) : Bool :=
  suf.data.isSuffixOf s.data

/-- Model of Python `str.startswith`. -/
def str_starts_with (s pre : String) : Bool :=
  pre.data.isPrefixOf s.data

/-- The two components of `urllib.parse.urlparse` the source consults. -/
structure UrlParts where
  netloc : String
  path : String
deriving DecidableEq

/-- Model of `urllib.parse.urlparse`, restricted to what the source
reads (netloc and path) and to the absolute-URL shapes it handles: the
netloc is what follows the first `://` up to the next `/`, `?` or `#`,
and the path what follows the netloc up to `?` or `#`; a string with
no `://` is all path (up to `?` or `#`), with empty netloc. -/
def urlparse (url : String) : UrlParts :=
  let cs := url.data
  match find_sub_idx cs ("://").data with
  | some i =>
    let r := cs.drop (i + 3)
    let netloc := r.takeWhile (fun c => !(c == '/') && !(c == '?') && !(c == '#'))
    let rest2 := r.drop netloc.length
    let path := rest2.takeWhile (fun c => !(c == '?') && !(c == '#'))
    ⟨⟨netloc⟩, ⟨path⟩⟩
  | none =>
    ⟨"", ⟨cs.takeWhile (fun c => !(c == '?') && !(c == '#'))⟩⟩

/-- Embedding of `ScraperConfig` (the Python dataclass).  The float
field `delay` is modelled as a rational; `limit` is the non-negative
target count. -/
structure ScraperConfig where
  subreddit : String
  output_dir : String := "downloads"
  limit : Nat := 25
  sort : String := "hot"
  time_filter : String := "week"
  min_width : Nat := 0
  min_height : Nat := 0
  min_score : Int := 0
  include_nsfw : Bool := false
  max_workers : Nat := 5
  delay : Rat := 1 / 2
  skip_existing : Bool := true
  verbose : Bool := true
deriving DecidableEq

/-- Embedding of the `RedditPost` dataclass; `created_utc` (a Python
float of epoch seconds) is modelled as a rational. -/
structure RedditPost where
  id : String
  title : String
  author : String
  subreddit : String
  url : String
  permalink : String
  score : Int
  created_utc : Rat
  is_nsfw : Bool
  width : Nat := 0
  height : Nat := 0
deriving DecidableEq

/-- The characters stripped from titles by
`re.sub(r'[<>:"/\\|?*]', '', title)` in `RedditPost.filename`. -/
def ILLEGAL_CHARS : List Char := ['<', '>', ':', '"', '/', '\\', '|', '?', '*']

/-- Model of the `re.sub` call in `RedditPost.filename`: delete every
occurrence of the illegal path characters. -/
def strip_illegal (t : String) : String :=
  ⟨t.data.filter (fun c => !(ILLEGAL_CHARS.contains c))⟩

/-- The ordered extension list of `RedditPost._get_extension`. -/
def FILENAME_EXTENSIONS : List String :=
  [".jpg", ".jpeg", ".png", ".gif", ".webp", ".mp4"]

/-- Embedding of `RedditPost._get_extension`: the first extension of
the fixed list that the lowercased URL path ends with, else `.jpg`. -/
def RedditPost.get_extension (p : RedditPost) : String :=
  let path := str_to_lower (urlparse p.url).path
  match FILENAME_EXTENSIONS.find? (fun e => str_ends_with path e) with
  | some e => e
  | none => ".jpg"

/-- Embedding of the `RedditPost.filename` property:
`f"{id}_{safe_title}{ext}"` with the title sanitized, truncated to 80
characters and stripped of surrounding whitespace. -/
def RedditPost.filename (p : RedditPost) : String :=
  let safe_title := str_trim (str_take (strip_illegal p.title) 80)
  p.id ++ "_" ++ safe_title ++ p.get_extension

/-- The `'s'` record of one gallery `media_metadata` value. -/
structure MediaSource where
  u : Option String
deriving DecidableEq

/-- One value of the `media_metadata` dict of a gallery post. -/
structure MediaItem where
  s : Option MediaSource
deriving DecidableEq

/-- The `source` record of a rendered preview image. -/
structure PreviewSource where
  url : Option String
  width : Option Nat
  height : Option Nat
deriving DecidableEq

/-- One entry of `preview.images`. -/
structure PreviewImage where
  source : Option PreviewSource
deriving DecidableEq

/-- The `preview` record of a raw entry. -/
structure Preview where
  images : List PreviewImage
deriving DecidableEq

/-- Embedding of a raw listing entry's `data` record (the fields the
source reads).  `none` models an absent key; an absent or empty
`media_metadata` dict is the empty list (the source only tests
truthiness and takes the first value), and an absent or empty
`preview` dict is `none`. -/
structure RawEntry where
  is_self : Option Bool
  is_video : Option Bool
  over_18 : Option Bool
  url : Option String
  is_gallery : Option Bool
  media_metadata : List MediaItem
  preview : Option Preview
  score : Option Int
  id : Option String
  title : Option String
  author : Option String
  subreddit : Option String
  permalink : Option String
  created_utc : Option Rat
deriving DecidableEq

/-- The all-absent raw entry, i.e. the `{}` default of
`post_data.get('data', {})`. -/
def RawEntry.empty : RawEntry :=
  ⟨none, none, none, none, none, [], none, none, none, none, none, none, none, none⟩

/-- A listing child: the wrapper object whose `data` key holds the raw
entry. -/
structure Child where
  data : Option RawEntry
deriving DecidableEq

/-- The `IMAGE_DOMAINS` set of the scraper. -/
def IMAGE_DOMAINS : List String :=
  ["i.redd.it", "i.imgur.com", "imgur.com", "preview.redd.it", "external-preview.redd.it"]

/-- The `IMAGE_EXTENSIONS` set of the scraper. -/
def IMAGE_EXTENSIONS : List String :=
  [".jpg", ".jpeg", ".png", ".gif", ".webp"]

/-- Embedding of `RedditScraper._is_image_url`: empty URLs are not
images; otherwise the netloc must be a known image domain or the
lowercased path must end with a known image extension. -/
def is_image_url (url : String) : Bool :=
  if url == "" then false
  else
    let parsed := urlparse url
    if IMAGE_DOMAINS.contains parsed.netloc then true
    else IMAGE_EXTENSIONS.any (fun e => str_ends_with (str_to_lower parsed.path) e)

/-- The gallery branch of `RedditScraper._extract_image_url`: when
`is_gallery` is truthy and `media_metadata` is non-empty, the branch
returns (possibly empty) `first_item['s'].get('u', '')` unescaped iff
the first value has an `'s'` key; otherwise control falls through. -/
def gallery_url (d : RawEntry) : Option String :=
  if d.is_gallery.getD false then
    match d.media_metadata with
    | [] => none
    | item :: _ =>
      match item.s with
      | some ms => some (string_replace (ms.u.getD "") "&amp;" "&")
      | none => none
  else none

/-- The preview branch of `RedditScraper._extract_image_url`: the
unescaped `preview.images[0].source.url`, returned iff non-empty. -/
def preview_image_url (d : RawEntry) : Option String :=
  match d.preview with
  | none => none
  | some pv =>
    match pv.images with
    | [] => none
    | img :: _ =>
      let src := img.source.getD ⟨none, none, none⟩
      let u := string_replace (src.url.getD "") "&amp;" "&"
      if u == "" then none else some u

/-- Embedding of `RedditScraper._extract_image_url`: direct image URL,
then gallery, then preview, then the speculative `.jpg` for URLs
containing `imgur.com` that are not album/gallery links. -/
def extract_image_url (d : RawEntry) : Option String :=
  let url := d.url.getD ""
  if is_image_url url then some url
  else
    match gallery_url d with
    | some u => some u
    | none =>
      match preview_image_url d with
      | some u => some u
      | none =>
        if contains_sub url "imgur.com" && !(is_image_url url) then
          if !(contains_sub url "/a/") && !(contains_sub url "/gallery/") then
            some (url ++ ".jpg")
          else none
        else none

/-- Embedding of `RedditScraper._parse_post`: the filter chain over a
listing child, with the source's fail-closed defaults (`is_self`,
`is_video` and `over_18` default to true when absent). -/
def parse_post (cfg : ScraperConfig) (child : Child) : Option RedditPost :=
  let data := child.data.getD RawEntry.empty
  if data.is_self.getD true then none
  else if data.is_video.getD true then none
  else if data.over_18.getD true && !cfg.include_nsfw then none
  else
    match extract_image_url data with
    | none => none
    | some image_url =>
      if image_url == "" then none
      else
        let score := data.score.getD 0
        if score < cfg.min_score then none
        else
          let src :=
            match data.preview with
            | none => none
            | some pv =>
              match pv.images with
              | [] => none
              | img :: _ => some (img.source.getD ⟨none, none, none⟩)
          let width := (src.map (fun s => s.width.getD 0)).getD 0
          let height := (src.map (fun s => s.height.getD 0)).getD 0
          if width ≠ 0 ∧ cfg.min_width ≠ 0 ∧ width < cfg.min_width then none
          else if height ≠ 0 ∧ cfg.min_height ≠ 0 ∧ height < cfg.min_height then none
          else some {
            id := data.id.getD ""
            title := data.title.getD "Untitled"
            author := data.author.getD "unknown"
            subreddit := data.subreddit.getD cfg.subreddit
            url := image_url
            permalink := data.permalink.getD ""
            score := score
            created_utc := data.created_utc.getD 0
            is_nsfw := data.over_18.getD true
            width := width
            height := height }

/-- A parsed listing page: `data.children` and `data.after` of the
JSON body.  A malformed body shows up as empty children / absent
cursor, which the loop treats as exhaustion. -/
structure Listing where
  children : List Child
  after : Option String
deriving DecidableEq

/-- One network outcome for a listing request, as distinguished by the
`except` arms of `RedditScraper._make_request`: a JSON body, an
`HTTPError` with a status code, a `URLError`, a JSON parse failure or
any other exception. -/
inductive Resp where
  | ok (l : Listing)
  | httpErr (code : Nat)
  | urlError
  | jsonError
  | otherError
deriving DecidableEq

/-- Embedding of `RedditScraper._make_request` against the response
oracle: a 429 `HTTPError` sleeps (a no-op here) and retries the same
URL, consuming the next oracle response — the source does this by
unbounded recursive self-call; every other error returns `None`.  An
exhausted oracle is reported as failure. -/
def make_request : List Resp → Option Listing × List Resp
  | [] => (none, [])
  | Resp.ok l :: rest => (some l, rest)
  | Resp.httpErr code :: rest =>
    if code = 429 then make_request rest else (none, rest)
  | Resp.urlError :: rest => (none, rest)
  | Resp.jsonError :: rest => (none, rest)
  | Resp.otherError :: rest => (none, rest)

/-- Embedding of `RedditScraper._build_url`: the listing URL with the
urlencoded parameters `limit=min(100, config.limit)`, `raw_json=1`,
`t` (only for the `top` sort) and `after` (only when continuing). -/
def build_url (cfg : ScraperConfig) (after : Option String) : String :=
  let base := "https://www.reddit.com/r/" ++ cfg.subreddit ++ "/" ++ cfg.sort ++ ".json"
  let q1 := "limit=" ++ toString (min 100 cfg.limit) ++ "&raw_json=1"
  let q2 := if cfg.sort == "top" then q1 ++ "&t=" ++ cfg.time_filter else q1
  let q3 :=
    match after with
    | some a => q2 ++ "&after=" ++ a
    | none => q2
  base ++ "?" ++ q3

/-- The mutable state of `RedditScraper.fetch_posts`: the accumulated
posts, the `fetched` counter, the `skipped` stat, and (as
instrumentation for the specification, not present in the source) the
list of URLs requested so far. -/
structure FetchState where
  posts : List RedditPost
  fetched : Nat
  skipped : Nat
  log : List String
deriving DecidableEq

/-- Embedding of the inner `for child in children` loop of
`fetch_posts`: stop once `fetched` reaches the limit; parse each
child; skip (counting) already-downloaded ids; append the rest. -/
def process_children (cfg : ScraperConfig) (dl : Finset String) :
    List Child → FetchState → FetchState
  | [], st => st
  | c :: cs, st =>
    if st.fetched ≥ cfg.limit then st
    else
      match parse_post cfg c with
      | none => process_children cfg dl cs st
      | some p =>
        if p.id ∈ dl then
          process_children cfg dl cs { st with skipped := st.skipped + 1 }
        else
          process_children cfg dl cs
            { st with posts := st.posts ++ [p], fetched := st.fetched + 1 }

/-- Embedding of the `while fetched < limit` loop of `fetch_posts`,
driven by the response oracle.  The loop requests `build_url cfg
after`, stops on a failed request, an empty `children` list or an
absent `after` cursor, and otherwise continues with the new cursor.
Recursion is by fuel; each iteration consumes at least one oracle
response, so fuel exceeding the oracle length is never exhausted. -/
def fetch_loop (cfg : ScraperConfig) (dl : Finset String) :
    Nat → List Resp → Option String → FetchState → FetchState
  | 0, _, _, st => st
  | fuel + 1, rs, after, st =>
    if st.fetched < cfg.limit then
      let st1 := { st with log := st.log ++ [build_url cfg after] }
      match make_request rs with
      | (none, _) => st1
      | (some d, rest) =>
        if d.children.isEmpty then st1
        else
          let st2 := process_children cfg dl d.children st1
          match d.after with
          | none => st2
          | some a => fetch_loop cfg dl fuel rest (some a) st2
    else st

/-- Embedding of `RedditScraper.fetch_posts`: run the listing loop
from an empty state with no cursor, against the oracle `rs` and the
already-downloaded id set `dl`. -/
def fetch_posts (cfg : ScraperConfig) (dl : Finset String) (rs : List Resp) : FetchState :=
  fetch_loop cfg dl (rs.length + 1) rs none ⟨[], 0, 0, []⟩

/-- The qualifying entries of a child list: those that parse to a post
(resolved and filtered) whose id is not already downloaded, in
order. -/
def qualify (cfg : ScraperConfig) (dl : Finset String) (cs : List Child) : List RedditPost :=
  (cs.filterMap (parse_post cfg)).filter (fun p => p.id ∉ dl)

/-- One network outcome for a download request: a response with a
declared content type and a body read that either yields the full
bytes or fails mid-transfer (`none`), or an exception raised by
`urlopen` itself (connection error, timeout or non-2xx status). -/
inductive DlResp where
  | ok (content_type : String) (body : Option (List Nat))
  | err
deriving DecidableEq

/-- The output directory as an association list from file names to
byte contents; the head entry for a name is its current content. -/
abbrev FS := List (String × List Nat)

/-- Writing a file: `open(path, 'wb')` followed by writes; the newest
entry shadows any previous one. -/
def fs_write (fs : FS) (name : String) (content : List Nat) : FS :=
  (name, content) :: fs

/-- Embedding of `RedditScraper._download_image` for one candidate: an
existing file is success without transfer; an `urlopen` exception is
failure; a content type not starting with `image/` is failure before
any write; otherwise `open` creates (truncates) the target file and
the body is written — if reading the body fails after the open, the
exception is caught and the empty target file is left behind. -/
def download_image (fs : FS) (resp : DlResp) (p : RedditPost) : Bool × FS :=
  if (fs.lookup p.filename).isSome then (true, fs)
  else
    match resp with
    | DlResp.err => (false, fs)
    | DlResp.ok ct body =>
      if !(str_starts_with ct "image/") then (false, fs)
      else
        match body with
        | some b => (true, fs_write fs p.filename b)
        | none => (false, fs_write fs p.filename [])

/-- The scraper's aggregate counters. -/
structure Stats where
  found : Nat
  downloaded : Nat
  skipped : Nat
  failed : Nat
deriving DecidableEq

/-- The state threaded through the download phase: the output
directory, the in-memory downloaded-id and failed-id sets, the
counters, and (as instrumentation for the specification) the ordered
record of per-candidate classifications. -/
structure DlState where
  fs : FS
  downloaded : Finset String
  failedIds : Finset String
  stats : Stats
  outcomes : List (RedditPost × Bool)
deriving DecidableEq

/-- Embedding of `RedditScraper.download_all`.  The thread pool is
modelled as a sequential fold over the candidates: each candidate is
downloaded against the oracle and classified exactly once; a success
increments `downloaded` and records the id in the dedup set, a
failure increments `failed` and records the id in the failed set. -/
def download_all (oracle : RedditPost → DlResp) :
    List RedditPost → DlState → DlState
  | [], st => st
  | p :: ps, st =>
    let r := download_image st.fs (oracle p) p
    if r.1 then
      download_all oracle ps
        { st with
          fs := r.2
          downloaded := insert p.id st.downloaded
          stats := { st.stats with downloaded := st.stats.downloaded + 1 }
          outcomes := st.outcomes ++ [(p, true)] }
    else
      download_all oracle ps
        { st with
          fs := r.2
          failedIds := insert p.id st.failedIds
          stats := { st.stats with failed := st.stats.failed + 1 }
          outcomes := st.outcomes ++ [(p, false)] }

/-- The initial download-phase state: empty directory, empty sets,
zero counters. -/
def init_dl_state : DlState := ⟨[], ∅, ∅, ⟨0, 0, 0, 0⟩, []⟩

/-- Model of `pathlib.PurePath.stem` on a file name: the name without
its final suffix.  As in CPython, the suffix starts at the position of
the last dot (`rfind`), and only counts when that position is neither
the first nor the last character; otherwise there is no suffix. -/
def path_stem (f : String) : String :=
  let cs := f.data
  let idxs := (List.range cs.length).filter (fun i => cs.getD i ' ' == '.')
  match idxs.getLast? with
  | some i => if 0 < i ∧ i + 1 < cs.length then ⟨cs.take i⟩ else f
  | none => f

/-- The identifier the source recovers from an on-disk file name:
`file.stem.split('_')[0]`, i.e. the portion of the stem preceding the
first underscore. -/
def stem_id (f : String) : String :=
  ⟨(path_stem f).data.takeWhile (fun c => !(c == '_'))⟩

/-- Embedding of `RedditScraper._load_existing_files`: seed the
downloaded-id set with `file.stem.split('_')[0]` of every file in the
output directory. -/
def load_existing_files (files : List String) : Finset String :=
  files.foldl (fun s f => insert (stem_id f) s) ∅

/-- Following the words of claim C2 (for comparison with `build_url`):
the page request whose limit parameter is `min(100, remaining_target)`
with `remaining_target` the target minus the entries accumulated so
far; all other parameters as in the source. -/
def spec_build_url (cfg : ScraperConfig) (accumulated : Nat) (after : Option String) : String :=
  let base := "https://www.reddit.com/r/" ++ cfg.subreddit ++ "/" ++ cfg.sort ++ ".json"
  let q1 := "limit=" ++ toString (min 100 (cfg.limit - accumulated)) ++ "&raw_json=1"
  let q2 := if cfg.sort == "top" then q1 ++ "&t=" ++ cfg.time_filter else q1
  let q3 :=
    match after with
    | some a => q2 ++ "&after=" ++ a
    | none => q2
  base ++ "?" ++ q3

/-- Following the words of claim C7 (for comparison with `stem_id`):
the portion of the file name itself preceding the first separator. -/
def claim_filename_identifier (f : String) : String :=
  ⟨f.data.takeWhile (fun c => !(c == '_'))⟩

/-- Following the words of claim C4 (for comparison with the condition
of the speculative-`.jpg` branch): the URL's host indicates the known
image-sharing service, i.e. its netloc contains `imgur.com`. -/
def claim_host_indicates_imgur (url : String) : Bool :=
  contains_sub (urlparse url).netloc "imgur.com"

/-- A qualifying listing child for the concrete scenarios: a non-self,
non-video, non-sensitive entry with a direct `i.redd.it` image URL. -/
def mk_child (i : String) : Child :=
  ⟨some { RawEntry.empty with
    is_self := some false
    is_video := some false
    over_18 := some false
    url := some ("https://i.redd.it/" ++ i ++ ".jpg")
    score := some 1
    id := some i
    title := some "t" }⟩

/-- The post `mk_child i` parses to under `cfg2`. -/
def mk_post (i : String) : RedditPost :=
  ⟨i, "t", "unknown", "pics", "https://i.redd.it/" ++ i ++ ".jpg", "", 1, 0, false, 0, 0⟩

/-- The concrete configuration of the scenarios: target 5 in
`r/pics`, all other options at their defaults. -/
def cfg2 : ScraperConfig := { subreddit := "pics", limit := 5 }

/-- First listing page of the concrete scenario: three qualifying
entries and a continuation cursor. -/
def page1 : Listing := ⟨[mk_child "a1", mk_child "a2", mk_child "a3"], some "t1"⟩

/-- Second listing page of the concrete scenario: three qualifying
entries and no continuation cursor. -/
def page2 : Listing := ⟨[mk_child "a4", mk_child "a5", mk_child "a6"], none⟩

/-- The concrete two-page response oracle. -/
def rs2 : List Resp := [Resp.ok page1, Resp.ok page2]

/-- A candidate for the concrete download scenarios. -/
def dpost (i : String) : RedditPost :=
  ⟨i, "t", "u", "pics", "https://i.redd.it/" ++ i ++ ".jpg", "", 1, 0, false, 0, 0⟩

/-- Five download candidates. -/
def posts8 : List RedditPost :=
  [dpost "b1", dpost "b2", dpost "b3", dpost "b4", dpost "b5"]

/-- The download oracle forcing a `text/html` content type on the
third candidate and an image response on the rest. -/
def oracle8 : RedditPost → DlResp := fun p =>
  if p.id == "b3" then DlResp.ok "text/html" (some [0]) else DlResp.ok "image/png" (some [1])

/-- The entry of the C4 counterexample: a direct URL whose host is
`evil.com` but whose path contains `imgur.com`. -/
def evil_entry : RawEntry :=
  { RawEntry.empty with url := some "https://evil.com/imgur.com" }

/-- The inner child loop appends exactly the first
`limit - fetched` qualifying entries, adds their number to `fetched`,
and leaves the request log untouched. -/
theorem process_children_spec (cfg : ScraperConfig) (dl : Finset String) :
    ∀ (cs : List Child) (st : FetchState),
      (process_children cfg dl cs st).posts
          = st.posts ++ (qualify cfg dl cs).take (cfg.limit - st.fetched) ∧
      (process_children cfg dl cs st).fetched
          = st.fetched + min (cfg.limit - st.fetched) (qualify cfg dl cs).length ∧
      (process_children cfg dl cs st).log = st.log := by
  intro cs
  induction cs with
  | nil =>
    intro st
    simp [process_children, qualify]
  | cons c cs ih =>
    intro st
    by_cases hlim : st.fetched ≥ cfg.limit
    · have hz : cfg.limit - st.fetched = 0 := by omega
      simp [process_children, hlim, hz]
    · have hpos : cfg.limit - st.fetched ≠ 0 := by omega
      cases hp : parse_post cfg c with
      | none =>
        have hq : qualify cfg dl (c :: cs) = qualify cfg dl cs := by
          simp [qualify, List.filterMap_cons, hp]
        simp only [process_children, hp]
        rw [if_neg hlim, hq]
        exact ih st
      | some p =>
        by_cases hd : p.id ∈ dl
        · have hq : qualify cfg dl (c :: cs) = qualify cfg dl cs := by
            simp [qualify, List.filterMap_cons, hp, hd]
          simp only [process_children, hp]
          rw [if_neg hlim, if_pos hd, hq]
          exact ih { st with skipped := st.skipped + 1 }
        · have hq : qualify cfg dl (c :: cs) = p :: qualify cfg dl cs := by
            simp [qualify, List.filterMap_cons, hp, hd]
          simp only [process_children, hp]
          rw [if_neg hlim, if_neg hd, hq]
          obtain ⟨h1, h2, h3⟩ := ih { st with posts := st.posts ++ [p], fetched := st.fetched + 1 }
          refine ⟨?_, ?_, h3⟩
          · rw [h1]
            have hk : cfg.limit - st.fetched = (cfg.limit - (st.fetched + 1)) + 1 := by omega
            rw [hk, List.take_succ_cons, List.append_assoc]
            rfl
          · rw [h2]
            simp only [List.length_cons]
            omega

/-- Against an all-successful page oracle in which no page is empty
and every page except possibly the last carries a continuation
cursor, the listing loop appends exactly the first `limit - fetched`
qualifying entries of the concatenated pages, in order. -/
theorem fetch_loop_pages (cfg : ScraperConfig) (dl : Finset String) :
    ∀ (pages : List Listing) (fuel : Nat) (after : Option String) (st : FetchState),
      pages.length < fuel →
      (∀ pg ∈ pages, pg.children ≠ []) →
      (∀ i : Nat, i + 1 < pages.length → (pages.getD i ⟨[], none⟩).after ≠ none) →
      (fetch_loop cfg dl fuel (pages.map Resp.ok) after st).posts
        = st.posts ++ (qualify cfg dl ((pages.map Listing.children).flatten)).take (cfg.limit - st.fetched) := by
  intro pages
  induction pages with
  | nil =>
    intro fuel after st hfuel _ _
    cases fuel with
    | zero => omega
    | succ f =>
      by_cases hlim : st.fetched < cfg.limit
      · simp [fetch_loop, hlim, make_request, qualify]
      · have hz : cfg.limit - st.fetched = 0 := by omega
        simp [fetch_loop, hlim, qualify, hz]
  | cons pg pages ih =>
    intro fuel after st hfuel hne hcur
    cases fuel with
    | zero => simp at hfuel
    | succ f =>
      by_cases hlim : st.fetched < cfg.limit
      · have hch : pg.children ≠ [] := hne pg (List.mem_cons_self pg pages)
        have hchE : pg.children.isEmpty = false := by
          cases hc : pg.children with
          | nil => exact absurd hc hch
          | cons x xs => simp
        simp only [fetch_loop, List.map_cons, make_request, if_pos hlim, hchE, Bool.false_eq_true,
          if_false]
        set st1 : FetchState := { st with log := st.log ++ [build_url cfg after] } with hst1
        obtain ⟨hp1, hp2, _⟩ := process_children_spec cfg dl pg.children st1
        have hst1p : st1.posts = st.posts := rfl
        have hst1f : st1.fetched = st.fetched := rfl
        cases hafter : pg.after with
        | none =>
          have hpages : pages = [] := by
            cases pages with
            | nil => rfl
            | cons q qs =>
              have h0 := hcur 0 (by simp)
              simp [hafter] at h0
          subst hpages
          simp only [hp1, hst1p, hst1f]
          simp [qualify]
        | some a =>
          have hlen : pages.length < f := by simp at hfuel; omega
          have hne2 : ∀ pg2 ∈ pages, pg2.children ≠ [] := by
            intro pg2 hm; exact hne pg2 (List.mem_cons_of_mem pg hm)
          have hcur2 : ∀ i : Nat, i + 1 < pages.length → (pages.getD i ⟨[], none⟩).after ≠ none := by
            intro i hi
            have := hcur (i + 1) (by simp; omega)
            simpa using this
          have hrec := ih f (some a) (process_children cfg dl pg.children st1) hlen hne2 hcur2
          rw [hrec, hp1, hp2, hst1p, hst1f]
          have hq : qualify cfg dl ((pg.children :: pages.map Listing.children).flatten)
              = qualify cfg dl pg.children ++ qualify cfg dl ((pages.map Listing.children).flatten) := by
            simp [qualify, List.filterMap_append]
          rw [hq]
          set k := cfg.limit - st.fetched with hk
          set q1 := qualify cfg dl pg.children with hq1
          set q2 := qualify cfg dl ((pages.map Listing.children).flatten) with hq2
          have harith : cfg.limit - (st.fetched + min k q1.length) = k - q1.length := by omega
          rw [harith, List.take_append_eq_append_take, List.append_assoc]
      · have hz : cfg.limit - st.fetched = 0 := by omega
        simp [fetch_loop, hlim, hz]

/-- Every URL the listing loop ever requests (beyond those already in
the log) is produced by `build_url` for some cursor. -/
theorem fetch_loop_log (cfg : ScraperConfig) (dl : Finset String) :
    ∀ (fuel : Nat) (rs : List Resp) (after : Option String) (st : FetchState) (u : String),
      u ∈ (fetch_loop cfg dl fuel rs after st).log →
      u ∈ st.log ∨ ∃ a : Option String, u = build_url cfg a := by
  intro fuel
  induction fuel with
  | zero =>
    intro rs after st u h
    simp only [fetch_loop] at h
    exact Or.inl h
  | succ f ih =>
    intro rs after st u h
    simp only [fetch_loop] at h
    by_cases hlim : st.fetched < cfg.limit
    · rw [if_pos hlim] at h
      have hbase : u ∈ st.log ++ [build_url cfg after] →
          u ∈ st.log ∨ ∃ a : Option String, u = build_url cfg a := by
        intro hm
        rcases List.mem_append.mp hm with hl | hr
        · exact Or.inl hl
        · exact Or.inr ⟨after, by simpa using hr⟩
      cases hmr : make_request rs with
      | mk od rest =>
        rw [hmr] at h
        cases od with
        | none =>
          dsimp only at h
          exact hbase h
        | some d =>
          dsimp only at h
          by_cases hch : d.children.isEmpty
          · rw [if_pos hch] at h
            exact hbase h
          · rw [if_neg hch] at h
            cases hafter : d.after with
            | none =>
              rw [hafter] at h
              obtain ⟨_, _, hlog⟩ := process_children_spec cfg dl d.children
                { st with log := st.log ++ [build_url cfg after] }
              rw [hlog] at h
              exact hbase h
            | some a =>
              rw [hafter] at h
              rcases ih rest (some a) _ u h with hl | hr
              · obtain ⟨_, _, hlog⟩ := process_children_spec cfg dl d.children
                  { st with log := st.log ++ [build_url cfg after] }
                rw [hlog] at hl
                exact hbase hl
              · exact Or.inr hr
    · rw [if_neg hlim] at h
      exact Or.inl h

/-- Seeding folds down to the finite set of stem-derived identifiers. -/
theorem load_existing_aux :
    ∀ (files : List String) (s : Finset String),
      files.foldl (fun t f => insert (stem_id f) t) s = s ∪ (files.map stem_id).toFinset := by
  intro files
  induction files with
  | nil => intro s; simp
  | cons f fs ih =>
    intro s
    simp only [List.foldl_cons, List.map_cons, List.toFinset_cons]
    rw [ih]
    ext x
    simp


/-- The download loop classifies each candidate exactly once and its
counters record exactly the classifications. -/
theorem download_all_stats (oracle : RedditPost → DlResp) :
    ∀ (posts : List RedditPost) (st : DlState),
      (download_all oracle posts st).outcomes.length = st.outcomes.length + posts.length ∧
      (download_all oracle posts st).stats.downloaded + (download_all oracle posts st).stats.failed
        = st.stats.downloaded + st.stats.failed + posts.length ∧
      (download_all oracle posts st).stats.skipped = st.stats.skipped ∧
      (download_all oracle posts st).stats.found = st.stats.found := by
  intro posts
  induction posts with
  | nil => intro st; simp [download_all]
  | cons p ps ih =>
    intro st
    simp only [download_all]
    by_cases hr : (download_image st.fs (oracle p) p).1
    · rw [if_pos hr]
      obtain ⟨h1, h2, h3, h4⟩ := ih _
      refine ⟨by rw [h1]; simp; omega, by rw [h2]; simp; omega, by rw [h3], by rw [h4]⟩
    · rw [if_neg hr]
      obtain ⟨h1, h2, h3, h4⟩ := ih _
      refine ⟨by rw [h1]; simp; omega, by rw [h2]; simp; omega, by rw [h3], by rw [h4]⟩

/-- Every candidate the download loop classifies as a success has its
id recorded in the in-memory dedup set, provided the same held of the
classifications already recorded. -/
theorem download_all_dedup (oracle : RedditPost → DlResp) :
    ∀ (posts : List RedditPost) (st : DlState),
      (∀ q ∈ st.outcomes, q.2 = true → q.1.id ∈ st.downloaded) →
      ∀ pr ∈ (download_all oracle posts st).outcomes, pr.2 = true →
        pr.1.id ∈ (download_all oracle posts st).downloaded := by
  intro posts
  induction posts with
  | nil =>
    intro st hinv pr hpr htrue
    simpa [download_all] using hinv pr (by simpa [download_all] using hpr) htrue
  | cons p ps ih =>
    intro st hinv pr hpr htrue
    simp only [download_all] at hpr ⊢
    by_cases hr : (download_image st.fs (oracle p) p).1
    · rw [if_pos hr] at hpr ⊢
      refine ih _ ?_ pr hpr htrue
      intro q hq hq2
      simp only [List.mem_append, List.mem_singleton] at hq
      rcases hq with hq | hq
      · exact Finset.mem_insert_of_mem (hinv q hq hq2)
      · subst hq
        exact Finset.mem_insert_self p.id st.downloaded
    · rw [if_neg hr] at hpr ⊢
      refine ih _ ?_ pr hpr htrue
      intro q hq hq2
      simp only [List.mem_append, List.mem_singleton] at hq
      rcases hq with hq | hq
      · exact hinv q hq hq2
      · subst hq
        simp at hq2

/-- C1 counterexample: two consecutive 429 responses followed by a
success.  The claim predicts that the second consecutive 429
propagates the failure (result `none`), but `_make_request` retries
again via its recursive self-call and returns the page. -/
theorem C1_counterexample :
    make_request [Resp.httpErr 429, Resp.httpErr 429, Resp.ok ⟨[], none⟩]
      = (some ⟨[], none⟩, []) ∧
    (make_request [Resp.httpErr 429, Resp.httpErr 429, Resp.ok ⟨[], none⟩]).1 ≠ none := by
  decide

/-- C1 (amended): on HTTP 429 the client sleeps and retries the same
request, and keeps doing so for every consecutive 429 (the retry is
unbounded recursion, not a single retry); any other error — connection
failure, malformed JSON, other non-2xx, or any other exception —
returns failure without retrying; a failed request terminates the
listing loop, which keeps the posts accumulated so far. -/
theorem C1_retry_unbounded :
    (∀ (k : Nat) (l : Listing) (rest : List Resp),
      make_request (List.replicate k (Resp.httpErr 429) ++ Resp.ok l :: rest) = (some l, rest)) ∧
    (∀ rest : List Resp, make_request (Resp.urlError :: rest) = (none, rest)) ∧
    (∀ rest : List Resp, make_request (Resp.jsonError :: rest) = (none, rest)) ∧
    (∀ rest : List Resp, make_request (Resp.otherError :: rest) = (none, rest)) ∧
    (∀ (code : Nat) (rest : List Resp), code ≠ 429 →
      make_request (Resp.httpErr code :: rest) = (none, rest)) ∧
    (∀ (cfg : ScraperConfig) (dl : Finset String) (fuel : Nat) (rs : List Resp)
        (after : Option String) (st : FetchState),
      (make_request rs).1 = none →
      (fetch_loop cfg dl (fuel + 1) rs after st).posts = st.posts) := by
  refine ⟨?_, ?_, ?_, ?_, ?_, ?_⟩
  · intro k
    induction k with
    | zero => intro l rest; simp [make_request]
    | succ n ih =>
      intro l rest
      simp only [List.replicate_succ, List.cons_append, make_request, if_pos rfl]
      exact ih l rest
  · intro rest; simp [make_request]
  · intro rest; simp [make_request]
  · intro rest; simp [make_request]
  · intro code rest hc; simp [make_request, hc]
  · intro cfg dl fuel rs after st hnone
    simp only [fetch_loop]
    by_cases hlim : st.fetched < cfg.limit
    · rw [if_pos hlim]
      cases hmr : make_request rs with
      | mk od rest =>
        rw [hmr] at hnone
        simp at hnone
        subst hnone
        rfl
    · rw [if_neg hlim]

/-- C1 witness: a non-429 HTTP error is propagated without retry. -/
theorem C1_witness : make_request [Resp.httpErr 404] = (none, ([] : List Resp)) :=
  C1_retry_unbounded.2.2.2.2.1 404 [] (by decide)

/-- C2 counterexample: with target 5 and 3 entries accumulated after
the first page, the second request's limit parameter is still
`min(100, 5) = 5`, not `min(100, remaining_target) = 2` as the claim
predicts — `_build_url` reads only the fixed `config.limit`. -/
theorem C2_counterexample :
    (fetch_posts cfg2 ∅ rs2).log.get? 1 = some (build_url cfg2 (some "t1")) ∧
    (fetch_posts cfg2 ∅ [Resp.ok page1]).posts.length = 3 ∧
    build_url cfg2 (some "t1")
      = "https://www.reddit.com/r/pics/hot.json?limit=5&raw_json=1&after=t1" ∧
    spec_build_url cfg2 3 (some "t1")
      = "https://www.reddit.com/r/pics/hot.json?limit=2&raw_json=1&after=t1" ∧
    build_url cfg2 (some "t1") ≠ spec_build_url cfg2 3 (some "t1") := by
  decide

/-- C2 (amended): the limit parameter of every page request issued
during the listing fetch equals `min(100, target)` — a constant,
independent of how many entries have been accumulated: every logged
request URL is produced by `build_url`, whose query always starts with
`limit=min(100, config.limit)`. -/
theorem C2_limit_param :
    (∀ (cfg : ScraperConfig) (a : Option String), ∃ tail : String,
      build_url cfg a
        = "https://www.reddit.com/r/" ++ cfg.subreddit ++ "/" ++ cfg.sort ++ ".json" ++ "?"
          ++ "limit=" ++ toString (min 100 cfg.limit) ++ "&raw_json=1" ++ tail) ∧
    (∀ (cfg : ScraperConfig) (dl : Finset String) (rs : List Resp) (u : String),
      u ∈ (fetch_posts cfg dl rs).log → ∃ a : Option String, u = build_url cfg a) := by
  constructor
  · intro cfg a
    by_cases htop : cfg.sort == "top"
    · cases a with
      | none =>
        refine ⟨"&t=" ++ cfg.time_filter, ?_⟩
        apply String.ext
        simp [build_url, htop, String.data_append, List.append_assoc]
      | some s =>
        refine ⟨"&t=" ++ cfg.time_filter ++ "&after=" ++ s, ?_⟩
        apply String.ext
        simp [build_url, htop, String.data_append, List.append_assoc]
    · cases a with
      | none =>
        refine ⟨"", ?_⟩
        apply String.ext
        simp [build_url, htop, String.data_append, List.append_assoc]
      | some s =>
        refine ⟨"&after=" ++ s, ?_⟩
        apply String.ext
        simp [build_url, htop, String.data_append, List.append_assoc]
  · intro cfg dl rs u hmem
    rcases fetch_loop_log cfg dl (rs.length + 1) rs none ⟨[], 0, 0, []⟩ u hmem with hl | hr
    · simp at hl
    · exact hr

/-- C2 witness: the first URL of the concrete run is a `build_url`
image of some cursor. -/
theorem C2_witness : ∃ a : Option String, build_url cfg2 none = build_url cfg2 a :=
  C2_limit_param.2 cfg2 ∅ rs2 (build_url cfg2 none) (by decide)

/-- C3: against any fixed sequence of successful listing pages, none
empty and each but possibly the last carrying a cursor, the listing
fetch returns exactly the first `limit` qualifying (parsed, filtered,
not-already-downloaded) entries in their original relative order; and
in the concrete scenario of two pages of three qualifying entries
each with target 5, it returns the first five and issues exactly two
requests — no third page is requested. -/
theorem C3_fetch_first_n :
    (∀ (cfg : ScraperConfig) (dl : Finset String) (pages : List Listing),
      (∀ pg ∈ pages, pg.children ≠ []) →
      (∀ i : Nat, i + 1 < pages.length → (pages.getD i ⟨[], none⟩).after ≠ none) →
      (fetch_posts cfg dl (pages.map Resp.ok)).posts
        = (qualify cfg dl ((pages.map Listing.children).flatten)).take cfg.limit) ∧
    ((fetch_posts cfg2 ∅ rs2).posts
        = [mk_post "a1", mk_post "a2", mk_post "a3", mk_post "a4", mk_post "a5"] ∧
     (fetch_posts cfg2 ∅ rs2).log.length = 2) := by
  refine ⟨?_, by decide, by decide⟩
  intro cfg dl pages hne hcur
  have h := fetch_loop_pages cfg dl pages ((pages.map Resp.ok).length + 1) none
    ⟨[], 0, 0, []⟩ (by simp) hne hcur
  simpa [fetch_posts] using h

/-- C3 witness: the general statement applied to the concrete
two-page oracle. -/
theorem C3_witness :
    (fetch_posts cfg2 ∅ ([page1, page2].map Resp.ok)).posts
      = (qualify cfg2 ∅ (([page1, page2].map Listing.children).flatten)).take cfg2.limit := by
  apply C3_fetch_first_n.1 cfg2 ∅ [page1, page2]
  · decide
  · intro i hi
    have hz : i = 0 := by simp at hi; omega
    subst hz
    decide

/-- C4 counterexample: an entry whose direct URL has host `evil.com`
(no image-sharing service in the host), no recognized extension, no
gallery and no preview matches none of the claim's four strategies,
yet the resolver appends `.jpg` — the code's speculative branch tests
`'imgur.com' in url` on the whole URL, which here matches the path. -/
theorem C4_counterexample :
    extract_image_url evil_entry = some "https://evil.com/imgur.com.jpg" ∧
    claim_host_indicates_imgur "https://evil.com/imgur.com" = false ∧
    is_image_url "https://evil.com/imgur.com" = false ∧
    gallery_url evil_entry = none ∧
    preview_image_url evil_entry = none := by
  decide

/-- C4 (amended): the resolver applies its strategies in the fixed
order (direct image URL, gallery first item, rendered preview,
speculative `.jpg`) and returns the first match; a URL whose netloc is
in the image-host allow-list or whose path ends in a known image
extension is returned unchanged; the speculative `.jpg` branch fires
when the URL string contains `imgur.com` anywhere (not only in the
host) and contains neither `/a/` nor `/gallery/`; an entry matching
none of the strategies resolves to no URL. -/
theorem C4_resolver_order :
    (∀ d : RawEntry, is_image_url (d.url.getD "") = true →
      extract_image_url d = some (d.url.getD "")) ∧
    (∀ (d : RawEntry) (u : String), is_image_url (d.url.getD "") = false →
      gallery_url d = some u → extract_image_url d = some u) ∧
    (∀ (d : RawEntry) (u : String), is_image_url (d.url.getD "") = false →
      gallery_url d = none → preview_image_url d = some u → extract_image_url d = some u) ∧
    (∀ d : RawEntry, is_image_url (d.url.getD "") = false →
      gallery_url d = none → preview_image_url d = none →
      contains_sub (d.url.getD "") "imgur.com" = true →
      contains_sub (d.url.getD "") "/a/" = false →
      contains_sub (d.url.getD "") "/gallery/" = false →
      extract_image_url d = some (d.url.getD "" ++ ".jpg")) ∧
    (∀ d : RawEntry, is_image_url (d.url.getD "") = false →
      gallery_url d = none → preview_image_url d = none →
      (contains_sub (d.url.getD "") "imgur.com" = false ∨
       contains_sub (d.url.getD "") "/a/" = true ∨
       contains_sub (d.url.getD "") "/gallery/" = true) →
      extract_image_url d = none) := by
  refine ⟨?_, ?_, ?_, ?_, ?_⟩
  · intro d h
    simp [extract_image_url, h]
  · intro d u h hg
    simp [extract_image_url, h, hg]
  · intro d u h hg hp
    simp [extract_image_url, h, hg, hp]
  · intro d h hg hp hc ha hgal
    simp [extract_image_url, h, hg, hp, hc, ha, hgal]
  · intro d h hg hp hor
    rcases hor with hc | ha | hgal
    · simp [extract_image_url, h, hg, hp, hc]
    · simp [extract_image_url, h, hg, hp, ha]
    · simp [extract_image_url, h, hg, hp, hgal]

/-- C4 witness: a direct `i.redd.it` image URL is returned
unchanged. -/
theorem C4_witness :
    extract_image_url { RawEntry.empty with url := some "https://i.redd.it/x1.jpg" }
      = some "https://i.redd.it/x1.jpg" := by
  have h := C4_resolver_order.1
    { RawEntry.empty with url := some "https://i.redd.it/x1.jpg" } (by decide)
  simpa using h

/-- C5: the parse step fails closed on missing flags — an entry
without `is_self` or without `is_video` never parses to a candidate
(the absent field defaults to true and is rejected), and an entry
without `over_18` parses to a candidate only when sensitive content
is explicitly opted in. -/
theorem C5_fail_closed :
    (∀ (cfg : ScraperConfig) (c : Child), (c.data.getD RawEntry.empty).is_self = none →
      parse_post cfg c = none) ∧
    (∀ (cfg : ScraperConfig) (c : Child), (c.data.getD RawEntry.empty).is_video = none →
      parse_post cfg c = none) ∧
    (∀ (cfg : ScraperConfig) (c : Child) (p : RedditPost),
      (c.data.getD RawEntry.empty).over_18 = none →
      parse_post cfg c = some p → cfg.include_nsfw = true) := by
  refine ⟨?_, ?_, ?_⟩
  · intro cfg c h
    simp [parse_post, h]
  · intro cfg c h
    by_cases hs : (c.data.getD RawEntry.empty).is_self.getD true
    · simp [parse_post, hs]
    · simp [parse_post, hs, h]
  · intro cfg c p h hp
    by_contra hn
    have hn2 : cfg.include_nsfw = false := by
      cases hinc : cfg.include_nsfw
      · rfl
      · exact absurd hinc hn
    by_cases hs : (c.data.getD RawEntry.empty).is_self.getD true
    · simp [parse_post, hs] at hp
    · by_cases hv : (c.data.getD RawEntry.empty).is_video.getD true
      · simp [parse_post, hs, hv] at hp
      · simp [parse_post, hs, hv, h, hn2] at hp

/-- C5 witness: the all-absent entry is rejected. -/
theorem C5_witness : parse_post { subreddit := "pics" } ⟨some RawEntry.empty⟩ = none :=
  C5_fail_closed.1 { subreddit := "pics" } ⟨some RawEntry.empty⟩ rfl

/-- C6: the derived filename is a pure deterministic function of
(identifier, title, url) — two posts agreeing on those three fields
get the identical filename whatever their other fields; the filename
is the identifier, a separator, the sanitized (illegal characters
stripped, truncated to 80, whitespace-trimmed) title, and an
extension; the extension always belongs to the fixed allowed list,
is `.jpg` when no allowed extension matches the URL path's suffix,
and is an actual suffix of the lowercased URL path when one does. -/
theorem C6_filename_deterministic :
    (∀ p q : RedditPost, p.id = q.id → p.title = q.title → p.url = q.url →
      RedditPost.filename p = RedditPost.filename q) ∧
    (∀ p : RedditPost, RedditPost.filename p
        = p.id ++ "_" ++ str_trim (str_take (strip_illegal p.title) 80)
          ++ RedditPost.get_extension p) ∧
    (∀ p : RedditPost, RedditPost.get_extension p ∈ FILENAME_EXTENSIONS) ∧
    (∀ p : RedditPost,
      (∀ e ∈ FILENAME_EXTENSIONS,
        str_ends_with (str_to_lower (urlparse p.url).path) e = false) →
      RedditPost.get_extension p = ".jpg") ∧
    (∀ p : RedditPost,
      (∃ e ∈ FILENAME_EXTENSIONS,
        str_ends_with (str_to_lower (urlparse p.url).path) e = true) →
      str_ends_with (str_to_lower (urlparse p.url).path) (RedditPost.get_extension p) = true) := by
  refine ⟨?_, ?_, ?_, ?_, ?_⟩
  · intro p q h1 h2 h3
    simp [RedditPost.filename, RedditPost.get_extension, h1, h2, h3]
  · intro p
    rfl
  · intro p
    rw [RedditPost.get_extension]
    cases hf : FILENAME_EXTENSIONS.find?
        (fun e => str_ends_with (str_to_lower (urlparse p.url).path) e) with
    | none => simp [FILENAME_EXTENSIONS]
    | some e =>
      simp only
      exact List.mem_of_find?_eq_some hf
  · intro p hall
    rw [RedditPost.get_extension]
    have hf : FILENAME_EXTENSIONS.find?
        (fun e => str_ends_with (str_to_lower (urlparse p.url).path) e) = none := by
      rw [List.find?_eq_none]
      intro e he
      simp [hall e he]
    rw [hf]
  · intro p hex
    rw [RedditPost.get_extension]
    obtain ⟨e, he, hends⟩ := hex
    have hsome : (FILENAME_EXTENSIONS.find?
        (fun e => str_ends_with (str_to_lower (urlparse p.url).path) e)).isSome := by
      rw [List.find?_isSome]
      exact ⟨e, he, hends⟩
    cases hf : FILENAME_EXTENSIONS.find?
        (fun e => str_ends_with (str_to_lower (urlparse p.url).path) e) with
    | none => rw [hf] at hsome; simp at hsome
    | some e2 =>
      simp only
      exact List.find?_some hf

/-- C6 witness: two posts identical in (id, title, url) but differing
in author, score and dimensions share the same filename. -/
theorem C6_witness :
    RedditPost.filename ⟨"a1", "t one", "alice", "pics", "https://i.redd.it/x1.png", "/p1", 5, 1, false, 10, 20⟩
      = RedditPost.filename ⟨"a1", "t one", "bob", "funny", "https://i.redd.it/x1.png", "/p2", 9, 2, true, 0, 0⟩ :=
  C6_filename_deterministic.1
    ⟨"a1", "t one", "alice", "pics", "https://i.redd.it/x1.png", "/p1", 5, 1, false, 10, 20⟩
    ⟨"a1", "t one", "bob", "funny", "https://i.redd.it/x1.png", "/p2", 9, 2, true, 0, 0⟩
    rfl rfl rfl

/-- C7 counterexample: for the on-disk name `abc.png` the portion of
the file name preceding the first separator is the whole name
`abc.png`, but seeding records `abc` — the source splits the
`stem` (name minus final extension), not the file name itself — so
`contains` is false for the claimed identifier. -/
theorem C7_counterexample :
    claim_filename_identifier "abc.png" = "abc.png" ∧
    "abc.png" ∉ load_existing_files ["abc.png"] ∧
    "abc" ∈ load_existing_files ["abc.png"] := by
  decide

/-- C7 (amended): seeding records, for each on-disk file name, the
portion of its stem (the name with its final extension removed)
preceding the first separator; `contains` is true exactly for the set
of these stem-derived identifiers — so N files carrying M distinct
stem-derived identifiers yield a set of exactly M identifiers. -/
theorem C7_seed_identifiers :
    ∀ (files : List String) (idf : String),
      (idf ∈ load_existing_files files ↔ idf ∈ files.map stem_id) ∧
      (load_existing_files files).card = (files.map stem_id).dedup.length := by
  intro files idf
  have h : load_existing_files files = (files.map stem_id).toFinset := by
    rw [load_existing_files, load_existing_aux]
    simp
  refine ⟨?_, ?_⟩
  · rw [h]
    exact List.mem_toFinset
  · rw [h]
    exact List.card_toFinset _

/-- C8: a response whose content type does not start with `image/` is
classified as a failure for that candidate only, with no file written
(the directory is returned unchanged); in the concrete five-candidate
run with one forced `text/html` response there are exactly four
successes and one failure, and no file exists for the failed
candidate. -/
theorem C8_content_type_isolation :
    (∀ (fs : FS) (p : RedditPost) (ct : String) (body : Option (List Nat)),
      fs.lookup (RedditPost.filename p) = none →
      str_starts_with ct "image/" = false →
      download_image fs (DlResp.ok ct body) p = (false, fs)) ∧
    ((download_all oracle8 posts8 init_dl_state).stats.downloaded = 4 ∧
     (download_all oracle8 posts8 init_dl_state).stats.failed = 1 ∧
     ((download_all oracle8 posts8 init_dl_state).fs.lookup
        (RedditPost.filename (dpost "b3"))).isSome = false) := by
  refine ⟨?_, by decide, by decide, by decide⟩
  intro fs p ct body hnone hct
  simp [download_image, hnone, hct]

/-- C8 witness: the general statement at a concrete html response. -/
theorem C8_witness :
    download_image [] (DlResp.ok "text/html" (some [0])) (dpost "b3") = (false, []) :=
  C8_content_type_isolation.1 [] (dpost "b3") "text/html" (some [0]) (by decide) (by decide)

/-- C9 counterexample: a response with content type `image/jpeg`
whose body read fails mid-transfer is classified a failure, yet an
empty file exists at the target path afterwards — the source opens
(truncates) the target before reading the body, so the write is not
atomic as claimed. -/
theorem C9_counterexample :
    download_image [] (DlResp.ok "image/jpeg" none) (dpost "c1")
      = (false, [(RedditPost.filename (dpost "c1"), [])]) ∧
    (([(RedditPost.filename (dpost "c1"), [])] : FS).lookup (RedditPost.filename (dpost "c1")))
      = some [] := by
  decide

/-- C9 (amended): failures detected before the target is opened — an
`urlopen` exception (network error, timeout, non-2xx) or a content
type not starting with `image/` — leave no file at the target path;
on success the full body is materialized at the target in a single
write; but a body-read failure occurring after the target was opened
leaves an empty file at the target path. -/
theorem C9_write_behavior :
    (∀ (fs : FS) (p : RedditPost), fs.lookup (RedditPost.filename p) = none →
      download_image fs DlResp.err p = (false, fs)) ∧
    (∀ (fs : FS) (p : RedditPost) (ct : String) (body : Option (List Nat)),
      fs.lookup (RedditPost.filename p) = none →
      str_starts_with ct "image/" = false →
      download_image fs (DlResp.ok ct body) p = (false, fs)) ∧
    (∀ (fs : FS) (p : RedditPost) (ct : String) (b : List Nat),
      fs.lookup (RedditPost.filename p) = none →
      str_starts_with ct "image/" = true →
      download_image fs (DlResp.ok ct (some b)) p
        = (true, fs_write fs (RedditPost.filename p) b)) ∧
    (∀ (fs : FS) (p : RedditPost) (ct : String),
      fs.lookup (RedditPost.filename p) = none →
      str_starts_with ct "image/" = true →
      download_image fs (DlResp.ok ct none) p
        = (false, fs_write fs (RedditPost.filename p) [])) := by
  refine ⟨?_, ?_, ?_, ?_⟩
  · intro fs p hnone
    simp [download_image, hnone]
  · intro fs p ct body hnone hct
    simp [download_image, hnone, hct]
  · intro fs p ct b hnone hct
    simp [download_image, hnone, hct]
  · intro fs p ct hnone hct
    simp [download_image, hnone, hct]

/-- C9 witness: the amended statement at a concrete successful
download. -/
theorem C9_witness :
    download_image [] (DlResp.ok "image/png" (some [7])) (dpost "c1")
      = (true, fs_write [] (RedditPost.filename (dpost "c1")) [7]) :=
  C9_write_behavior.2.2.1 [] (dpost "c1") "image/png" [7] (by decide) (by decide)

/-- C10: the download phase classifies every candidate exactly once —
the outcome record grows by the number of candidates and the
`downloaded` and `failed` increments sum to it, while `skipped` is
untouched; a candidate whose target file already exists before
transfer is classified a success (counted as downloaded, not
skipped); and every candidate classified as a success has its id in
the in-memory dedup set afterwards. -/
theorem C10_classification :
    (∀ (oracle : RedditPost → DlResp) (posts : List RedditPost) (st : DlState),
      (download_all oracle posts st).outcomes.length = st.outcomes.length + posts.length ∧
      (download_all oracle posts st).stats.downloaded + (download_all oracle posts st).stats.failed
        = st.stats.downloaded + st.stats.failed + posts.length ∧
      (download_all oracle posts st).stats.skipped = st.stats.skipped) ∧
    (∀ (fs : FS) (resp : DlResp) (p : RedditPost),
      (fs.lookup (RedditPost.filename p)).isSome = true →
      download_image fs resp p = (true, fs)) ∧
    (∀ (oracle : RedditPost → DlResp) (posts : List RedditPost) (pr : RedditPost × Bool),
      pr ∈ (download_all oracle posts init_dl_state).outcomes → pr.2 = true →
      pr.1.id ∈ (download_all oracle posts init_dl_state).downloaded) := by
  refine ⟨?_, ?_, ?_⟩
  · intro oracle posts st
    obtain ⟨h1, h2, h3, _⟩ := download_all_stats oracle posts st
    exact ⟨h1, h2, h3⟩
  · intro fs resp p h
    simp [download_image, h]
  · intro oracle posts pr hpr ht
    refine download_all_dedup oracle posts init_dl_state ?_ pr hpr ht
    intro q hq
    simp [init_dl_state] at hq

/-- C10 witness: a candidate whose file already exists is classified
a success without touching the directory. -/
theorem C10_witness :
    download_image [(RedditPost.filename (dpost "d1"), [7])] DlResp.err (dpost "d1")
      = (true, [(RedditPost.filename (dpost "d1"), [7])]) :=
  C10_classification.2.1 [(RedditPost.filename (dpost "d1"), [7])] DlResp.err (dpost "d1")
    (by decide)
